import Mathlib

/-!
# Verification of the notesnook mobile editor bridge (`use-editor.ts`)

A shallow embedding of the note editor session-synchronization bridge from
`apps/mobile/app/screens/editor/tiptap/use-editor.ts`: the debounced
persistence trigger (`withTimer` / `saveContent`), the save orchestrator
(`saveNote`), note loading (`loadNote` / `loadContent` / `reset`) and the
restore-on-resume handler (`restoreEditorState`).

JavaScript `undefined`/`null` is modelled with `Option`; JS truthiness of
strings ("" and `undefined` are falsy) is `strTruthy`.  Mutations of the
React refs (`currentNote`, `currentContent`, `sessionHistoryId`,
`saveCount`) are modelled as explicit state passing on `EditorSt`; calls
into the external database, vault, command channel and event bus are
recorded as an `Effect` trace in program order.
-/

namespace Notesnook

/-- JS truthiness of an optional string: `undefined` and `""` are falsy. -/
def strTruthy : Option String → Bool
  | none => false
  | some s => !(s == "")

/-- A content block as held in `currentContent` / `note.content`:
`{ data, type }` where `data` may be `undefined`. -/
structure Content where
  data : Option String
  type : String
deriving Repr, DecidableEq

/-- A persisted note record, with the fields `use-editor.ts` reads:
`id`, `title`, `headline` (generated preview text), `locked`, `conflicted`,
`readonly`, `contentId`, `sessionId` (history-session token), inline
`content`, and `dateEdited`. -/
structure Note where
  id : String
  title : String
  headline : Option String
  locked : Bool
  conflicted : Bool
  readonly : Bool
  contentId : Option String
  sessionId : Option Nat
  content : Option Content
  dateEdited : Nat
deriving Repr, DecidableEq

/-- The partial update (`noteData : Partial<Note>`) built by `saveNote`:
only the fields the save populates.  `none` means the field is absent from
the partial. -/
structure NotePatch where
  id : Option String
  sessionId : Option Nat
  title : Option String
  contentData : Option String
  contentType : Option String
  contentId : Option String
deriving Repr, DecidableEq

/-- The `SavePayload` handed to `saveNote` (built by `saveContent`):
`{ title, id, data, type, sessionId, sessionHistoryId }`. -/
structure SavePayload where
  title : Option String
  id : Option String
  data : Option String
  type : String
  sessionId : String
  sessionHistoryId : Option Nat
deriving Repr, DecidableEq

/-- Observable calls out of the bridge, in program order: database writes,
command-channel messages, event-bus emissions and store updates. -/
inductive Effect where
  | notesAdd (nd : NotePatch)
  | vaultSave (nd : NotePatch)
  | setStatus (dateEdited : Nat) (label : String)
  | queueRefresh
  | cancelFileOps (id : String)
  | setReadonlyFlag (b : Bool)
  | postTitle (t : String)
  | clearContent
  | clearTags
  | setCurrentlyEditingNote (id : Option String)
  | setPlaceholder
  | titlePlaceholder (t : String)
  | noteCreated (id : String)
  | cmdSetSessionId (sid : String)
  | cmdFocus
  | overlayShow
  | overlayHide
  | fetchRawContent (cid : Option String)
  | postHtml (d : Option String)
  | setTagsCmd
  | setSettingsCmd
  | loadImagesQueued
deriving Repr, DecidableEq

/-- The mutable refs of one editor instance that the save/load paths touch:
`currentNote.current`, `currentContent.current`, `sessionHistoryId.current`,
`saveCount.current`, plus the notes database the bridge reads and writes. -/
structure EditorSt where
  currentNote : Option Note
  currentContent : Option Content
  sessionHistoryId : Option Nat
  saveCount : Nat
  db : List Note
deriving Repr, DecidableEq

/-- `db.notes?.note(id)` — look a note up by id. -/
def dbNotesNote (db : List Note) (id : String) : Option Note :=
  db.find? (fun n => n.id == id)

/-- `let note = id ? db.notes?.note(id)?.data : null` in `saveNote`. -/
def lookedUpNote (db : List Note) (id : Option String) : Option Note :=
  if strTruthy id then dbNotesNote db (id.getD "") else none

/-- `note?.locked` coerced to a boolean (`undefined` is falsy). -/
def noteLocked : Option Note → Bool
  | some n => n.locked
  | none => false

/-- `note?.conflicted` coerced to a boolean. -/
def noteConflicted : Option Note → Bool
  | some n => n.conflicted
  | none => false

/-- `currentNote.current?.readonly` coerced to a boolean. -/
def noteReadonly : Option Note → Bool
  | some n => n.readonly
  | none => false

/-- Modelled from the spec: the default/empty-document marker recognised by
the editor utilities (§4.4 step 3 speaks of "a known default/empty-document
marker"); its concrete value is defined in `./utils`, which is outside the
inspected sources. -/
def emptyDocMarker : String := "<p></p>"

/-- Modelled from the spec: `isContentInvalid` is imported by `use-editor.ts`
from `./utils`, which is outside the inspected sources.  Per §4.4 step 3,
content is "invalid" if it is missing, empty, or equals the known
default/empty-document marker. -/
def isContentInvalid (data : Option String) : Bool :=
  match data with
  | none => true
  | some d => d == "" || d == emptyDocMarker

/-- Modelled from the spec: the persistence module regenerates the note's
preview text (`headline`) from newly written content (§9 notes that preview
text is recomputed by the persistence layer before comparison).  The exact
derivation is external; it is modelled as a fixed function of the content. -/
def previewOf (data : String) : String := data.take 160

/-- Modelled from the spec: applying a partial update to an existing note via
the external `upsert-note(partial)` (§6): fields absent from the partial are
never overwritten (§4.4 step 4); the history-session token is always present
in the partial built by `saveNote` and is stored as given; the edit timestamp
and generated preview are refreshed on write. -/
def applyPatch (n : Note) (nd : NotePatch) (now : Nat) : Note :=
  { n with
    sessionId := nd.sessionId
    title := nd.title.getD n.title
    content :=
      match nd.contentData with
      | some d => some { data := some d, type := nd.contentType.getD "tiptap" }
      | none => n.content
    headline :=
      match nd.contentData with
      | some d => some (previewOf d)
      | none => n.headline
    dateEdited := now }

/-- Modelled from the spec: creating a brand-new note via `upsert-note`
when the partial carries no existing id (§4.4 step 6); the persistence
module assigns a fresh id. -/
def mkNewNote (freshId : String) (nd : NotePatch) (now : Nat) : Note :=
  { id := freshId
    title := nd.title.getD "Note"
    headline := nd.contentData.map previewOf
    locked := false
    conflicted := false
    readonly := false
    contentId := nd.contentId
    sessionId := nd.sessionId
    content := nd.contentData.map (fun d => { data := some d, type := nd.contentType.getD "tiptap" })
    dateEdited := now }

/-- Modelled from the spec: `db.notes?.add(noteData)` — the external
upsert-note path (§6).  Updates the matching record when the partial carries
an id, creates a fresh note otherwise, and returns the id of the written
note. -/
def dbNotesAdd (db : List Note) (nd : NotePatch) (now : Nat) (freshId : String) :
    List Note × Option String :=
  match nd.id with
  | some i =>
    if (dbNotesNote db i).isSome then
      (db.map (fun m => if m.id == i then applyPatch m nd now else m), some i)
    else
      (mkNewNote i nd now :: db, some i)
  | none => (mkNewNote freshId nd now :: db, some freshId)

/-- Inputs `saveNote` reads from its surrounding hook instance and
environment: the `readonly` prop, the store's read-only flag,
`isDefaultEditor`, the store's `currentEditingNote` pointer, the value of
`sessionIdRef.current` observed after the persistence write completes,
`Date.now()` at this call, and the fresh id the external upsert would
assign to a brand-new note. -/
structure SaveCtx where
  readonlyProp : Bool
  storeReadonly : Bool
  isDefaultEditor : Bool
  currentEditingNote : Option String
  activeSessionAfterWrite : String
  now : Nat
  freshId : String
deriving Repr, DecidableEq

/-- The outcome of one `saveNote` call: the returned id (or `undefined`),
the refs after the call, and the trace of external calls it made. -/
structure SaveOut where
  result : Option String
  state : EditorSt
  effects : List Effect
deriving Repr, DecidableEq

/-- `reset(resetState)` from `use-editor.ts`: cancel file operations for the
old note, clear the `currentNote` / `currentContent` / `sessionHistoryId` /
`saveCount` refs, clear the store's read-only flag, clear title, content and
tags in the view, and (when `resetState`) clear the currently-editing
pointer and re-set the placeholder. -/
def resetFx (isDefaultEditor : Bool) (resetState : Bool) (st : EditorSt) :
    EditorSt × List Effect :=
  let fx0 :=
    match st.currentNote with
    | some n => if strTruthy (some n.id) then [Effect.cancelFileOps n.id] else []
    | none => []
  let st1 : EditorSt :=
    { st with currentNote := none, currentContent := none,
              sessionHistoryId := none, saveCount := 0 }
  let fx1 := fx0 ++ [Effect.setReadonlyFlag false, Effect.postTitle "",
                     Effect.clearContent, Effect.clearTags]
  let fx2 :=
    if resetState then
      (if isDefaultEditor then [Effect.setCurrentlyEditingNote none] else []) ++
        [Effect.setPlaceholder]
    else []
  (st1, fx1 ++ fx2)

/-- Lines 242–260 of `saveNote`: after the write, when the saved id is truthy
and `sessionIdRef.current` still equals the session captured in the payload,
re-fetch the note, push a "Saved" status through the command channel, and
queue a note-list refresh when the save counter is below 2 or the saved
title / first 200 preview characters differ from the cached `currentNote`;
finally increment the save counter (line 260 runs on every non-early-exit
path).  A failed re-fetch models the `note.dateEdited` exception, which the
surrounding `catch` swallows before the counter increment. -/
def finishSave (c : SaveCtx) (p : SavePayload) (st : EditorSt) (id : Option String)
    (fx : List Effect) : SaveOut :=
  if strTruthy id && (c.activeSessionAfterWrite == p.sessionId) then
    match dbNotesNote st.db (id.getD "") with
    | none => ⟨none, st, fx⟩
    | some n2 =>
      let refresh :=
        decide (st.saveCount < 2) ||
        !((st.currentNote.map (fun m => m.title)) == some n2.title) ||
        !((st.currentNote.bind (fun m => m.headline)).map (fun s => s.take 200) ==
            n2.headline.map (fun s => s.take 200))
      ⟨id, { st with saveCount := st.saveCount + 1 },
        fx ++ [Effect.setStatus n2.dateEdited "Saved"] ++
          (if refresh then [Effect.queueRefresh] else [])⟩
  else
    ⟨id, { st with saveCount := st.saveCount + 1 }, fx⟩

/-- Lines 200–214 of `saveNote`: the partial update (`noteData`) built from
the payload.  The history-session token is nulled for invalid content;
title and content are only populated when truthy. -/
def builtPatch (p : SavePayload) : NotePatch :=
  { id := p.id
    sessionId := if isContentInvalid p.data then none else p.sessionHistoryId
    title := if strTruthy p.title then p.title else none
    contentData := if strTruthy p.data then p.data else none
    contentType := if strTruthy p.data then some p.type else none
    contentId := none }

/-- The save orchestrator `saveNote` of `use-editor.ts` (lines 167–268).
Early exits: any read-only flag; a supplied id with no matching record
(clear editor state and abort); a conflicted record.  Otherwise: mint a new
history-session token on invalid content, build the partial update
(`noteData`) with only the populated fields, route through `db.notes.add`
or — for a locked note — `db.vault.save` with the existing `contentId`, then
run the post-write status/refresh step (`finishSave`). -/
def saveNote (c : SaveCtx) (st : EditorSt) (p : SavePayload) : SaveOut :=
  if c.readonlyProp || c.storeReadonly || noteReadonly st.currentNote then
    ⟨none, st, []⟩
  else if strTruthy p.id && !(dbNotesNote st.db (p.id.getD "")).isSome then
    let r := resetFx c.isDefaultEditor true st
    ⟨none, r.1,
      (if c.isDefaultEditor then [Effect.setCurrentlyEditingNote none] else []) ++ r.2⟩
  else
    let note := lookedUpNote st.db p.id
    if noteConflicted note then ⟨none, st, []⟩
    else
      let invalid := isContentInvalid p.data
      -- `sessionHistoryId.current = Date.now()` when the content is invalid;
      -- `noteData.sessionId = isContentInvalid(data) ? null : currentSessionHistoryId`
      let st0 : EditorSt :=
        { st with sessionHistoryId := if invalid then some c.now else st.sessionHistoryId }
      let nd : NotePatch := builtPatch p
      if !(noteLocked note) then
        let add := dbNotesAdd st0.db nd c.now c.freshId
        let st1 : EditorSt := { st0 with db := add.1 }
        -- `if (!note && id) { currentNote.current = db.notes?.note(id).data; ... }`
        let createdNote : Option Note :=
          if note.isNone && strTruthy add.2 then dbNotesNote add.1 (add.2.getD "") else none
        let st2 : EditorSt :=
          match createdNote with
          | some cn => { st1 with currentNote := some cn }
          | none => st1
        let fxCreated :=
          match createdNote with
          | some cn =>
            [Effect.noteCreated cn.id] ++
              (if nd.title.isNone then [Effect.titlePlaceholder cn.title] else [])
          | none => []
        -- `if (currentEditingNote !== id && isDefaultEditor) setTimeout(() => id && set(id))`
        let fxEditing :=
          if !(c.currentEditingNote == add.2) && c.isDefaultEditor then
            (if strTruthy add.2 then [Effect.setCurrentlyEditingNote add.2] else [])
          else []
        finishSave c p st2 add.2 ([Effect.notesAdd nd] ++ fxCreated ++ fxEditing)
      else
        -- locked: `noteData.contentId = note?.contentId; await db.vault?.save(noteData)`;
        -- the encrypted write is owned by the external vault module.
        let ndL : NotePatch := { nd with contentId := note.bind (fun n => n.contentId) }
        finishSave c p st0 p.id [Effect.vaultSave ndL]

/-! ## Debounced persistence trigger (`saveContent` / `withTimer`) -/

/-- The params object `saveContent` builds before arming the timer
(lines 371–378): the closure's `sessionId`, the current note's id (or
`undefined`), and the `sessionHistoryId` ref at payload-creation time. -/
def buildParams (closureSessionId : String) (currentNote : Option Note)
    (sessionHistoryId : Option Nat) (title : Option String)
    (content : Option String) : SavePayload :=
  { title := title
    data := content
    type := "tiptap"
    sessionId := closureSessionId
    id := currentNote.map (fun n => n.id)
    sessionHistoryId := sessionHistoryId }

/-- The body of the debounce-timer callback in `saveContent`
(lines 382–395), up to the call of `saveNote`: when a note is current, the
payload carries no truthy id, and the payload's session token equals the
closure-captured `sessionId`, re-point `params.id` at the current note's id;
otherwise leave the payload unchanged.  `currentNote` is the ref's value at
firing time; `closureSessionId` is the `sessionId` captured by the
`saveContent` closure that armed the timer. -/
def fireSaveTimer (closureSessionId : String) (currentNote : Option Note)
    (params : SavePayload) : SavePayload :=
  if currentNote.isSome && !(strTruthy params.id) && (params.sessionId == closureSessionId)
  then { params with id := currentNote.map (fun n => n.id) }
  else params

/-! ## The `withTimer` debounce machine

`withTimer (id, fn, duration)` does `clearTimeout(timers[id]);
timers[id] = setTimeout(fn, duration)`.  We model a run of schedule events
`(time, key, payload)` in chronological order over a timer store holding at
most one pending `(key, deadline, payload)` per key: at each event, timers
whose deadline has passed fire first, then the event's key is re-armed with
deadline `time + window`, cancelling any pending timer for that key; after
the last event every remaining timer fires. -/

/-- A pending timer: key, absolute deadline, payload. -/
structure PendingTimer where
  key : String
  deadline : Nat
  payload : Nat
deriving Repr, DecidableEq

/-- State of a `withTimer` run: pending timers and the payloads fired so
far (key, payload) in firing order. -/
structure TimerRun where
  pending : List PendingTimer
  fired : List (String × Nat)
deriving Repr, DecidableEq

/-- Process one schedule event at time `t` on key `k` with payload `p`:
fire timers due by `t`, then `clearTimeout` the key's pending timer and
`setTimeout` a fresh one with deadline `t + window`. -/
def stepEvent (window : Nat) (s : TimerRun) (ev : Nat × String × Nat) : TimerRun :=
  let t := ev.1
  let k := ev.2.1
  let p := ev.2.2
  let due := s.pending.filter (fun x => decide (x.deadline ≤ t))
  let live := s.pending.filter (fun x => !(decide (x.deadline ≤ t)))
  { pending := ⟨k, t + window, p⟩ :: live.filter (fun x => !(x.key == k))
    fired := s.fired ++ due.map (fun x => (x.key, x.payload)) }

/-- Run a chronological list of schedule events and then let every
still-pending timer fire: the complete list of `(key, payload)` saves the
debounce machine executes. -/
def runTimers (window : Nat) (evs : List (Nat × String × Nat)) : List (String × Nat) :=
  let final := evs.foldl (stepEvent window) ⟨[], []⟩
  final.fired ++ final.pending.map (fun x => (x.key, x.payload))

/-- Events arrive in order and each gap is strictly inside the quiet
window: `t_i ≤ t_(i+1) < t_i + window`. -/
def withinWindow (window : Nat) : List (Nat × String × Nat) → Prop
  | [] => True
  | [_] => True
  | a :: b :: rest =>
    a.1 ≤ b.1 ∧ b.1 < a.1 + window ∧ withinWindow window (b :: rest)

instance withinWindowDecidable (window : Nat) :
    ∀ evs : List (Nat × String × Nat), Decidable (withinWindow window evs)
  | [] => isTrue trivial
  | [_] => isTrue trivial
  | a :: b :: rest =>
    have _ih : Decidable (withinWindow window (b :: rest)) :=
      withinWindowDecidable window (b :: rest)
    inferInstanceAs
      (Decidable (a.1 ≤ b.1 ∧ b.1 < a.1 + window ∧ withinWindow window (b :: rest)))

/-! ## Note loading (`loadNote` / `loadContent`) -/

/-- The hook-level state `loadNote` touches beyond the `EditorSt` refs:
the active session token (`sessionId` state / `sessionIdRef`) and
`state.current.currentlyEditing`. -/
structure LoadSt where
  ed : EditorSt
  sessionId : String
  currentlyEditing : Bool
deriving Repr, DecidableEq

/-- The argument of `loadNote`: a note item, whether the request is a
"new note" request (`type === "new"`), and the `forced` flag. -/
structure LoadItem where
  note : Note
  isNew : Bool
  forced : Bool
deriving Repr, DecidableEq

/-- Modelled from the spec: `db.content?.raw(contentId)` — the external
content-blob store keyed by content id (§6). -/
def dbContentRaw (contentStore : List (String × Content)) (cid : Option String) :
    Option Content :=
  match cid with
  | some c => (contentStore.find? (fun x => x.1 == c)).map (fun x => x.2)
  | none => none

/-- `loadContent(note)` (lines 270–280): point `currentNote` at the note;
take content inline when the note is locked or already embeds it
(`type || "tiny"`), otherwise fetch the raw blob by `contentId`. -/
def loadContent (contentStore : List (String × Content)) (ed : EditorSt)
    (note : Note) : EditorSt × List Effect :=
  let ed1 : EditorSt := { ed with currentNote := some note }
  if note.locked || note.content.isSome then
    let inlineType : String :=
      match note.content with
      | some ct => if ct.type == "" then "tiny" else ct.type
      | none => "tiny"
    let ct : Content := { data := note.content.bind (fun c => c.data), type := inlineType }
    ({ ed1 with currentContent := some ct }, [])
  else
    ({ ed1 with currentContent := dbContentRaw contentStore note.contentId },
     [Effect.fetchRawContent note.contentId])

/-- `loadNote(item)` (lines 282–324).  Sets `currentlyEditing`; for a
"new note" request resets (when a note is loaded), mints a session and
focuses; for an existing note returns unchanged when the same id is already
loaded and the request is not forced, otherwise runs the full load:
overlay, soft reset, content fetch, session mint, command-channel pushes,
read-only restore and deferred image loading.  `freshSession` stands for
`makeSessionId(item)` and `now` for `Date.now()`. -/
def loadNote (isDefaultEditor : Bool) (contentStore : List (String × Content))
    (freshSession : String) (now : Nat) (st : LoadSt) (item : LoadItem) :
    LoadSt × List Effect :=
  let st0 : LoadSt := { st with currentlyEditing := true }
  if item.isNew then
    let r :=
      if st0.ed.currentNote.isSome then resetFx isDefaultEditor true st0.ed
      else (st0.ed, [])
    let st1 : LoadSt :=
      { st0 with ed := { r.1 with sessionHistoryId := some now }, sessionId := freshSession }
    (st1, r.2 ++ [Effect.cmdSetSessionId freshSession, Effect.cmdFocus,
                  Effect.setReadonlyFlag false])
  else if !item.forced &&
      (match st0.ed.currentNote with
       | some n => n.id == item.note.id
       | none => false) then
    (st0, [])
  else
    let fxA :=
      (if isDefaultEditor then [Effect.setCurrentlyEditingNote (some item.note.id)] else []) ++
        [Effect.overlayShow]
    let r :=
      if st0.ed.currentNote.isSome then resetFx isDefaultEditor false st0.ed
      else (st0.ed, [])
    let lc := loadContent contentStore r.1 item.note
    let ed2 : EditorSt :=
      { lc.1 with sessionHistoryId := some now, currentNote := some item.note }
    let st1 : LoadSt := { st0 with ed := ed2, sessionId := freshSession }
    (st1,
      fxA ++ r.2 ++ lc.2 ++
        [Effect.cmdSetSessionId freshSession,
         Effect.setStatus item.note.dateEdited "Saved",
         Effect.postTitle item.note.title,
         Effect.postHtml (lc.1.currentContent.bind (fun ct => ct.data)),
         Effect.setReadonlyFlag item.note.readonly,
         Effect.setTagsCmd, Effect.setSettingsCmd,
         Effect.overlayHide, Effect.loadImagesQueued])

/-! ## Restore-on-resume (`restoreEditorState`) -/

/-- The persisted app-state blob `{ editing, note, timestamp }` read from
the key-value store on cold start. -/
structure AppStateBlob where
  editing : Bool
  note : Option Note
  timestamp : Nat
deriving Repr, DecidableEq

/-- `restoreEditorState` (lines 402–433): when a blob exists and records
`editing`, an unlocked note with a truthy id, and `Date.now() <
timestamp + 3600000`, replay the note as a load and remove the blob
(single use); otherwise leave the store as it is and load nothing.
Returns (note replayed, store afterwards). -/
def restoreEditorState (store : Option AppStateBlob) (now : Nat) :
    Option Note × Option AppStateBlob :=
  match store with
  | none => (none, none)
  | some a =>
    if restoreCond a now then (a.note, none) else (none, some a)
where
  /-- `appState.editing && !appState.note?.locked && appState.note?.id &&
  Date.now() < appState.timestamp + 3600000`. -/
  restoreCond (a : AppStateBlob) (now : Nat) : Bool :=
    a.editing && !(noteLocked a.note) && strTruthy (a.note.map (fun n => n.id)) &&
      decide (now < a.timestamp + 3600000)

/-! ## Concrete fixtures for witnesses and counterexamples -/

/-- An unlocked, unconflicted, writable note. -/
def sampleNote : Note :=
  { id := "n1", title := "T", headline := some "H", locked := false,
    conflicted := false, readonly := false, contentId := some "c1",
    sessionId := some 7, content := none, dateEdited := 10 }

/-- A second note with a different id and title. -/
def sampleNote2 : Note := { sampleNote with id := "n2", title := "U" }

/-- A vault-locked variant of `sampleNote`. -/
def lockedSample : Note := { sampleNote with locked := true }

/-- A sync-conflicted variant of `sampleNote`. -/
def conflictedSample : Note := { sampleNote with conflicted := true }

/-- A baseline environment: default editor, nothing read-only, active
session `"A"`. -/
def sampleCtx : SaveCtx :=
  { readonlyProp := false, storeReadonly := false, isDefaultEditor := true,
    currentEditingNote := some "n1", activeSessionAfterWrite := "A",
    now := 99, freshId := "f1" }

/-- Baseline refs: `sampleNote` loaded, database holding it alone. -/
def sampleSt : EditorSt :=
  { currentNote := some sampleNote, currentContent := none,
    sessionHistoryId := some 7, saveCount := 0, db := [sampleNote] }

/-- A payload produced under session `"A"` carrying real content for
`sampleNote`. -/
def samplePayload : SavePayload :=
  { title := some "T2", id := some "n1", data := some "hello",
    type := "tiptap", sessionId := "A", sessionHistoryId := some 7 }

/-- A stale payload of session `"A"` that captured note id `"n1"`. -/
def stalePayload : SavePayload :=
  { title := none, id := some "n1", data := some "x",
    type := "tiptap", sessionId := "A", sessionHistoryId := some 7 }

/-- Baseline refs with the locked variant of the note loaded and stored. -/
def lockedSt : EditorSt :=
  { currentNote := some lockedSample, currentContent := none,
    sessionHistoryId := some 7, saveCount := 0, db := [lockedSample] }

/-- `samplePayload` with an empty (falsy) title. -/
def emptyTitlePayload : SavePayload := { samplePayload with title := some "" }

/-- `samplePayload` with empty (invalid) content. -/
def invalidPayload : SavePayload := { samplePayload with data := some "" }

/-- A payload whose history token is the one minted at `now = 99`. -/
def mintedPayload : SavePayload := { samplePayload with sessionHistoryId := some 99 }

/-! ## Helper lemmas -/

theorem strTruthy_some (s : String) (h : s ≠ "") : strTruthy (some s) = true := by
  simp [strTruthy, h]

theorem strTruthy_map_isSome {α : Type} (o : Option α) (f : α → String)
    (h : strTruthy (o.map f) = true) : o.isSome = true := by
  cases o with
  | none => simp [strTruthy] at h
  | some a => rfl

theorem finishSave_effects_stale (c : SaveCtx) (p : SavePayload) (st : EditorSt)
    (id : Option String) (fx : List Effect)
    (h : (c.activeSessionAfterWrite == p.sessionId) = false) :
    (finishSave c p st id fx).effects = fx := by
  simp [finishSave, h]

theorem finishSave_effects_shape (c : SaveCtx) (p : SavePayload) (st : EditorSt)
    (id : Option String) (fx : List Effect) :
    ∀ e ∈ (finishSave c p st id fx).effects,
      e ∈ fx ∨ (∃ d, e = Effect.setStatus d "Saved") ∨ e = Effect.queueRefresh := by
  intro e he
  unfold finishSave at he
  split at he
  · split at he
    · simp only at he
      exact Or.inl he
    · simp only at he
      rcases List.mem_append.mp he with h1 | h1
      · rcases List.mem_append.mp h1 with h2 | h2
        · exact Or.inl h2
        · simp at h2
          exact Or.inr (Or.inl ⟨_, h2⟩)
      · split at h1 <;> simp at h1
        exact Or.inr (Or.inr h1)
  · simp only at he
    exact Or.inl he

theorem finishSave_fx_mem (c : SaveCtx) (p : SavePayload) (st : EditorSt)
    (id : Option String) (fx : List Effect) (e : Effect) (he : e ∈ fx) :
    e ∈ (finishSave c p st id fx).effects := by
  unfold finishSave
  split
  · split
    · simpa using he
    · simp only
      exact List.mem_append.mpr (Or.inl (List.mem_append.mpr (Or.inl he)))
  · simpa using he

theorem finishSave_state_hist (c : SaveCtx) (p : SavePayload) (st : EditorSt)
    (id : Option String) (fx : List Effect) :
    (finishSave c p st id fx).state.sessionHistoryId = st.sessionHistoryId := by
  unfold finishSave
  split
  · split <;> rfl
  · rfl

theorem finishSave_state_db (c : SaveCtx) (p : SavePayload) (st : EditorSt)
    (id : Option String) (fx : List Effect) :
    (finishSave c p st id fx).state.db = st.db := by
  unfold finishSave
  split
  · split <;> rfl
  · rfl

theorem resetFx_no_setStatus (d b : Bool) (st : EditorSt) (t : Nat) (l : String) :
    Effect.setStatus t l ∉ (resetFx d b st).2 := by
  unfold resetFx
  cases hc : st.currentNote <;> split_ifs <;> simp

/-- Path reduction: a save for an existing, unlocked, unconflicted note with
no read-only flag set reaches the normal upsert path with the built patch,
the patched database and id `i`. -/
theorem saveNote_unlocked_existing_eq (c : SaveCtx) (st : EditorSt) (p : SavePayload)
    (i : String) (n : Note)
    (hr1 : c.readonlyProp = false) (hr2 : c.storeReadonly = false)
    (hr3 : noteReadonly st.currentNote = false)
    (hid : p.id = some i) (hi : i ≠ "")
    (hn : dbNotesNote st.db i = some n)
    (hco : n.conflicted = false) (hlk : n.locked = false) :
    saveNote c st p =
      finishSave c p
        { st with
            sessionHistoryId :=
              if isContentInvalid p.data then some c.now else st.sessionHistoryId
            db := st.db.map
              (fun m => if m.id == i then applyPatch m (builtPatch p) c.now else m) }
        (some i)
        ([Effect.notesAdd (builtPatch p)] ++
          (if !(c.currentEditingNote == some i) && c.isDefaultEditor then
            [Effect.setCurrentlyEditingNote (some i)] else [])) := by
  have hst : strTruthy p.id = true := by rw [hid]; exact strTruthy_some i hi
  have hget : p.id.getD "" = i := by rw [hid]; rfl
  have hndid : (builtPatch p).id = some i := by rw [builtPatch]; exact hid
  unfold saveNote
  rw [hr1, hr2, hr3]
  simp only [Bool.or_self, Bool.false_or, if_neg Bool.false_ne_true, hst, hget, hn,
    Option.isSome_some, Bool.not_true, Bool.and_false, lookedUpNote, if_pos rfl,
    noteConflicted, hco, noteLocked, hlk, Bool.not_false, if_true]
  unfold dbNotesAdd
  rw [hndid]
  simp [hn, strTruthy_some i hi]

/-- Path reduction: a save for an existing, locked, unconflicted note with no
read-only flag set reaches the vault-save path with the built patch carrying
the note's existing `contentId`. -/
theorem saveNote_locked_eq (c : SaveCtx) (st : EditorSt) (p : SavePayload)
    (i : String) (n : Note)
    (hr1 : c.readonlyProp = false) (hr2 : c.storeReadonly = false)
    (hr3 : noteReadonly st.currentNote = false)
    (hid : p.id = some i) (hi : i ≠ "")
    (hn : dbNotesNote st.db i = some n)
    (hco : n.conflicted = false) (hlk : n.locked = true) :
    saveNote c st p =
      finishSave c p
        { st with
            sessionHistoryId :=
              if isContentInvalid p.data then some c.now else st.sessionHistoryId }
        p.id
        [Effect.vaultSave { builtPatch p with contentId := n.contentId }] := by
  have hst : strTruthy p.id = true := by rw [hid]; exact strTruthy_some i hi
  have hget : p.id.getD "" = i := by rw [hid]; rfl
  unfold saveNote
  rw [hr1, hr2, hr3]
  simp only [Bool.or_self, Bool.false_or, if_neg Bool.false_ne_true, hst, hget, hn,
    Option.isSome_some, Bool.not_true, Bool.and_false, lookedUpNote, if_pos rfl,
    noteConflicted, hco, noteLocked, hlk, Bool.not_true, Bool.false_eq_true, if_false]
  simp [hco, hlk]

theorem resetFx_no_notesAdd (d b : Bool) (st : EditorSt) (nd : NotePatch) :
    Effect.notesAdd nd ∉ (resetFx d b st).2 := by
  unfold resetFx
  cases hc : st.currentNote <;> split_ifs <;> simp

theorem resetFx_no_vaultSave (d b : Bool) (st : EditorSt) (nd : NotePatch) :
    Effect.vaultSave nd ∉ (resetFx d b st).2 := by
  unfold resetFx
  cases hc : st.currentNote <;> split_ifs <;> simp

/-- Any `notesAdd` call `saveNote` makes carries exactly the built patch. -/
theorem saveNote_notesAdd_is_builtPatch (c : SaveCtx) (st : EditorSt) (p : SavePayload) :
    ∀ nd : NotePatch, Effect.notesAdd nd ∈ (saveNote c st p).effects →
      nd = builtPatch p := by
  intro nd hmem
  simp only [saveNote] at hmem
  split at hmem
  · simp at hmem
  · split at hmem
    · dsimp only at hmem
      rcases List.mem_append.mp hmem with h1 | h1
      · split at h1 <;> simp at h1
      · exact absurd h1 (resetFx_no_notesAdd _ _ _ nd)
    · split at hmem
      · simp at hmem
      · split at hmem
        · rcases finishSave_effects_shape _ _ _ _ _ _ hmem with h1 | h1 | h1
          · rcases List.mem_append.mp h1 with h2 | h2
            · rcases List.mem_append.mp h2 with h3 | h3
              · exact Effect.notesAdd.inj (List.mem_singleton.mp h3)
              · exfalso
                split at h3
                · rcases List.mem_append.mp h3 with h4 | h4
                  · simp at h4
                  · split at h4 <;> simp at h4
                · simp at h3
            · exfalso
              split at h2
              · split at h2 <;> simp at h2
              · simp at h2
          · obtain ⟨dd, hdd⟩ := h1; exact absurd hdd (by simp)
          · exact absurd h1 (by simp)
        · rcases finishSave_effects_shape _ _ _ _ _ _ hmem with h1 | h1 | h1
          · simp at h1
          · obtain ⟨dd, hdd⟩ := h1; exact absurd hdd (by simp)
          · exact absurd h1 (by simp)

/-- Any `vaultSave` call `saveNote` makes carries the built patch extended
with the looked-up note's existing `contentId`. -/
theorem saveNote_vaultSave_patch (c : SaveCtx) (st : EditorSt) (p : SavePayload) :
    ∀ nd : NotePatch, Effect.vaultSave nd ∈ (saveNote c st p).effects →
      nd = { builtPatch p with
               contentId := (lookedUpNote st.db p.id).bind (fun m => m.contentId) } := by
  intro nd hmem
  simp only [saveNote] at hmem
  split at hmem
  · simp at hmem
  · split at hmem
    · dsimp only at hmem
      rcases List.mem_append.mp hmem with h1 | h1
      · split at h1 <;> simp at h1
      · exact absurd h1 (resetFx_no_vaultSave _ _ _ nd)
    · split at hmem
      · simp at hmem
      · split at hmem
        · exfalso
          rcases finishSave_effects_shape _ _ _ _ _ _ hmem with h1 | h1 | h1
          · rcases List.mem_append.mp h1 with h2 | h2
            · rcases List.mem_append.mp h2 with h3 | h3
              · simp at h3
              · split at h3
                · rcases List.mem_append.mp h3 with h4 | h4
                  · simp at h4
                  · split at h4 <;> simp at h4
                · simp at h3
            · split at h2
              · split at h2 <;> simp at h2
              · simp at h2
          · obtain ⟨dd, hdd⟩ := h1; exact absurd hdd (by simp)
          · exact absurd h1 (by simp)
        · rcases finishSave_effects_shape _ _ _ _ _ _ hmem with h1 | h1 | h1
          · simpa using List.mem_singleton.mp h1
          · obtain ⟨dd, hdd⟩ := h1; exact absurd hdd (by simp)
          · exact absurd h1 (by simp)

/-- Patching the note with id `i` inside the database and looking `i` up
again finds exactly the patched note. -/
theorem dbNotesNote_map_patch (db : List Note) (i : String) (n : Note)
    (nd : NotePatch) (now : Nat) (hn : dbNotesNote db i = some n) :
    dbNotesNote (db.map (fun m => if m.id == i then applyPatch m nd now else m)) i =
      some (applyPatch n nd now) := by
  unfold dbNotesNote at hn ⊢
  induction db with
  | nil => simp at hn
  | cons m rest ih =>
    rw [List.map_cons]
    by_cases hm : (m.id == i) = true
    · rw [@List.find?_cons_of_pos _ (fun x => x.id == i) m rest hm] at hn
      obtain rfl : m = n := Option.some.inj hn
      rw [if_pos hm]
      exact @List.find?_cons_of_pos _ (fun x => x.id == i) (applyPatch m nd now) _ hm
    · rw [@List.find?_cons_of_neg _ (fun x => x.id == i) m rest hm] at hn
      rw [if_neg hm]
      rw [@List.find?_cons_of_neg _ (fun x => x.id == i) m _ hm]
      exact ih hn

/-! ## Claim theorems -/

/-- C2 (counterexample): the debounce-timer callback does NOT re-resolve the
noteId of a payload whose captured session token (`"A"`) differs from the
now-active session (`"B"`): the payload captured note id `"n1"`, the
now-current note is `"n2"`, and the payload is saved with `"n1"` — the stale
identity — rather than re-resolved to `"n2"`. -/
theorem saveContent_stale_retarget_cex :
    stalePayload.sessionId ≠ "B" ∧
    sampleNote2.id = "n2" ∧
    (fireSaveTimer stalePayload.sessionId (some sampleNote2) stalePayload).id = some "n1" ∧
    some "n1" ≠ some sampleNote2.id := by
  refine ⟨by decide, by decide, by decide, by decide⟩

/-- C2 (amended): when the debounce timer fires, the payload's noteId is
re-resolved from the now-current note exactly when the payload carries no
truthy noteId and a note is currently loaded; the session-token guard
compares the payload's token against the closure-captured token — which
always equals it — so a payload that captured a noteId keeps that id
unchanged regardless of which session is active at firing time. -/
theorem fireSaveTimer_retargets_iff_id_unset (cur : Option Note) (p : SavePayload) :
    fireSaveTimer p.sessionId cur p =
      if cur.isSome && !(strTruthy p.id) then { p with id := cur.map (fun n => n.id) }
      else p := by
  unfold fireSaveTimer
  simp

/-- C7: opening an existing note that is already the current note, without
the forced flag, is a no-op: no session is minted (the session token is
unchanged), no content is fetched and no command-channel message is sent —
the effect trace is empty and only the `currentlyEditing` marker is set. -/
theorem loadNote_idempotent_open (isDefaultEditor : Bool)
    (contentStore : List (String × Content)) (freshSession : String) (now : Nat)
    (st : LoadSt) (item : LoadItem) (n : Note)
    (hnew : item.isNew = false) (hforced : item.forced = false)
    (hcur : st.ed.currentNote = some n) (hid : n.id = item.note.id) :
    loadNote isDefaultEditor contentStore freshSession now st item =
      ({ st with currentlyEditing := true }, []) := by
  simp [loadNote, hnew, hforced, hcur, hid]

/-- C7 witness: a second open of the already-loaded `sampleNote` changes
nothing and emits nothing. -/
theorem loadNote_idempotent_open_witness :
    loadNote true [] "S2" 55
        { ed := sampleSt, sessionId := "A", currentlyEditing := true }
        { note := sampleNote, isNew := false, forced := false } =
      ({ ed := sampleSt, sessionId := "A", currentlyEditing := true }, []) := by
  exact loadNote_idempotent_open true [] "S2" 55
    { ed := sampleSt, sessionId := "A", currentlyEditing := true }
    { note := sampleNote, isNew := false, forced := false } sampleNote
    rfl rfl rfl rfl

/-- C8: `restoreEditorState` replays the persisted blob as a note load
exactly when it records `editing`, an unlocked note with a truthy id, and
`now` is strictly below `timestamp + 3600000`; on restore the blob is
removed, so a second restore finds nothing; a blob whose timestamp is
3,600,001 in the past is not restored, one 3,599,999 in the past is. -/
theorem restoreEditorState_freshness (a : AppStateBlob) (now : Nat) :
    ((restoreEditorState (some a) now).1.isSome = true ↔
      (a.editing = true ∧ noteLocked a.note = false ∧
        strTruthy (a.note.map (fun n => n.id)) = true ∧ now < a.timestamp + 3600000)) ∧
    ((restoreEditorState (some a) now).1.isSome = true →
      (restoreEditorState (some a) now).2 = none ∧
      (restoreEditorState (restoreEditorState (some a) now).2 now).1 = none) ∧
    ((restoreEditorState (some a) (a.timestamp + 3600001)).1 = none) ∧
    (a.editing = true → noteLocked a.note = false →
      strTruthy (a.note.map (fun n => n.id)) = true →
      (restoreEditorState (some a) (a.timestamp + 3599999)).1 = a.note ∧
        a.note.isSome = true) := by
  refine ⟨?_, ?_, ?_, ?_⟩
  · by_cases hb : restoreEditorState.restoreCond a now = true
    · have hc := hb
      simp only [restoreEditorState.restoreCond, Bool.and_eq_true, Bool.not_eq_true',
        decide_eq_true_eq] at hc
      obtain ⟨⟨⟨h1, h2⟩, h3⟩, h4⟩ := hc
      simp only [restoreEditorState, hb, if_true]
      exact ⟨fun _ => ⟨h1, h2, h3, h4⟩, fun _ => strTruthy_map_isSome a.note _ h3⟩
    · simp only [restoreEditorState, hb, if_false, Bool.false_eq_true]
      constructor
      · intro hfalse; simp at hfalse
      · rintro ⟨h1, h2, h3, h4⟩
        exact absurd (by simp [restoreEditorState.restoreCond, h1, h2, h3, h4]) hb
  · by_cases hb : restoreEditorState.restoreCond a now = true
    · simp [restoreEditorState, hb]
    · simp [restoreEditorState, hb]
  · have hlt : ¬ (a.timestamp + 3600001 < a.timestamp + 3600000) := by omega
    simp [restoreEditorState, restoreEditorState.restoreCond, hlt]
  · intro h1 h2 h3
    have hlt : a.timestamp + 3599999 < a.timestamp + 3600000 := by omega
    have hb : restoreEditorState.restoreCond a (a.timestamp + 3599999) = true := by
      simp [restoreEditorState.restoreCond, h1, h2, h3, hlt]
    exact ⟨by simp [restoreEditorState, hb], strTruthy_map_isSome a.note _ h3⟩

/-- C8 witness: a blob for the unlocked `sampleNote` saved at t=5 is
restored at `5 + 3599999` (yielding the note) and the restore consumes the
blob; it is not restored at `5 + 3600001`. -/
theorem restoreEditorState_freshness_witness :
    (restoreEditorState (some { editing := true, note := some sampleNote, timestamp := 5 })
        (5 + 3599999)).1 = some sampleNote ∧
    (restoreEditorState (some { editing := true, note := some sampleNote, timestamp := 5 })
        (5 + 3600001)).1 = none ∧
    (restoreEditorState (some { editing := true, note := some sampleNote, timestamp := 5 })
        (5 + 3599999)).2 = none := by
  have h := restoreEditorState_freshness
    { editing := true, note := some sampleNote, timestamp := 5 } (5 + 3599999)
  refine ⟨(h.2.2.2 (by decide) (by decide) (by decide)).1, h.2.2.1, ?_⟩
  exact (h.2.1 (by decide)).1

/-- C9: a save that exits early because the editor is read-only (prop,
store flag, or the current note) or because the persisted record is
conflicted is an atomic no-op: it returns `undefined` (`none`), leaves every
ref — current note, current content, history token, save counter — and the
database untouched, and performs no external call at all. -/
theorem saveNote_early_exit_noop (c : SaveCtx) (st : EditorSt) (p : SavePayload)
    (h : c.readonlyProp = true ∨ c.storeReadonly = true ∨
         noteReadonly st.currentNote = true ∨
         noteConflicted (lookedUpNote st.db p.id) = true) :
    saveNote c st p = ⟨none, st, []⟩ := by
  by_cases h1 : (c.readonlyProp || c.storeReadonly || noteReadonly st.currentNote) = true
  · unfold saveNote
    rw [if_pos h1]
  · have h1f : (c.readonlyProp || c.storeReadonly || noteReadonly st.currentNote) = false :=
      Bool.eq_false_iff.mpr h1
    have hcf : noteConflicted (lookedUpNote st.db p.id) = true := by
      rcases h with h | h | h | h
      · rw [h] at h1f; simp at h1f
      · rw [h] at h1f; simp at h1f
      · rw [h] at h1f; simp at h1f
      · exact h
    have hstr : strTruthy p.id = true := by
      cases hx : strTruthy p.id with
      | false => rw [lookedUpNote, if_neg (by simp [hx])] at hcf; simp [noteConflicted] at hcf
      | true => rfl
    have hsome : (dbNotesNote st.db (p.id.getD "")).isSome = true := by
      cases hy : dbNotesNote st.db (p.id.getD "") with
      | none => rw [lookedUpNote, if_pos hstr, hy] at hcf; simp [noteConflicted] at hcf
      | some m => rfl
    unfold saveNote
    rw [h1f]
    simp only [Bool.false_eq_true, if_false, hstr, hsome, Bool.not_true, Bool.and_false,
      Bool.true_and, hcf, if_true]

/-- C9 witness: a save against a conflicted record changes nothing and
returns nothing. -/
theorem saveNote_early_exit_noop_witness :
    saveNote sampleCtx { sampleSt with db := [conflictedSample] } samplePayload =
      ⟨none, { sampleSt with db := [conflictedSample] }, []⟩ :=
  saveNote_early_exit_noop sampleCtx { sampleSt with db := [conflictedSample] }
    samplePayload (Or.inr (Or.inr (Or.inr (by decide))))

/-- C1: a save initiated with a captured session token sends no `setStatus`
command when, at the time the persistence write completes, the active
session token no longer equals the captured one — on every path through
`saveNote`. -/
theorem saveNote_no_status_on_stale_session (c : SaveCtx) (st : EditorSt)
    (p : SavePayload) (h : c.activeSessionAfterWrite ≠ p.sessionId) :
    ∀ d l, Effect.setStatus d l ∉ (saveNote c st p).effects := by
  intro d l
  have hb : (c.activeSessionAfterWrite == p.sessionId) = false := by
    simp [h]
  simp only [saveNote]
  split
  · simp
  · split
    · intro hmem
      dsimp only at hmem
      rcases List.mem_append.mp hmem with h1 | h1
      · split at h1 <;> simp at h1
      · exact resetFx_no_setStatus _ _ _ d l h1
    · split
      · simp
      · split
        · intro hmem
          rw [finishSave_effects_stale _ _ _ _ _ hb] at hmem
          rcases List.mem_append.mp hmem with h1 | h1
          · rcases List.mem_append.mp h1 with h2 | h2
            · simp at h2
            · split at h2
              · rcases List.mem_append.mp h2 with h3 | h3
                · simp at h3
                · split at h3 <;> simp at h3
              · simp at h2
          · split at h1
            · split at h1 <;> simp at h1
            · simp at h1
        · intro hmem
          rw [finishSave_effects_stale _ _ _ _ _ hb] at hmem
          simp at hmem

/-- C1 witness: with active session `"B"` after the write and a payload
captured under session `"A"`, no status command is sent. -/
theorem saveNote_no_status_on_stale_session_witness :
    Effect.setStatus 99 "Saved" ∉
      (saveNote { sampleCtx with activeSessionAfterWrite := "B" } sampleSt
        samplePayload).effects :=
  saveNote_no_status_on_stale_session { sampleCtx with activeSessionAfterWrite := "B" }
    sampleSt samplePayload (by decide) 99 "Saved"

/-- C3: a save whose target note is vault-locked routes through the
vault-save path with a patch carrying the note's existing `contentId`
unchanged, and the normal note-upsert path (`notes.add`) is never invoked
for that save. -/
theorem saveNote_locked_routes_vault (c : SaveCtx) (st : EditorSt) (p : SavePayload)
    (i : String) (n : Note)
    (hr1 : c.readonlyProp = false) (hr2 : c.storeReadonly = false)
    (hr3 : noteReadonly st.currentNote = false)
    (hid : p.id = some i) (hi : i ≠ "")
    (hn : dbNotesNote st.db i = some n)
    (hco : n.conflicted = false) (hlk : n.locked = true) :
    Effect.vaultSave { builtPatch p with contentId := n.contentId } ∈
        (saveNote c st p).effects ∧
    (∀ nd : NotePatch, Effect.notesAdd nd ∉ (saveNote c st p).effects) := by
  rw [saveNote_locked_eq c st p i n hr1 hr2 hr3 hid hi hn hco hlk]
  constructor
  · exact finishSave_fx_mem _ _ _ _ _ _ (List.mem_singleton.mpr rfl)
  · intro nd hmem
    rcases finishSave_effects_shape _ _ _ _ _ _ hmem with h1 | h1 | h1
    · simp at h1
    · obtain ⟨dd, hdd⟩ := h1; simp at hdd
    · simp at h1

/-- C3 witness: saving the locked `lockedSample` emits a `vaultSave` with
the existing content id `"c1"` and no `notesAdd`. -/
theorem saveNote_locked_routes_vault_witness :
    Effect.vaultSave { builtPatch samplePayload with contentId := lockedSample.contentId } ∈
        (saveNote sampleCtx lockedSt samplePayload).effects ∧
    Effect.notesAdd (builtPatch samplePayload) ∉
        (saveNote sampleCtx lockedSt samplePayload).effects := by
  have h := saveNote_locked_routes_vault sampleCtx lockedSt samplePayload "n1" lockedSample
    rfl rfl (by decide) rfl (by decide) (by decide) (by decide) (by decide)
  exact ⟨h.1, h.2 (builtPatch samplePayload)⟩

/-- C10: a payload whose title is falsy (absent or empty) yields a partial
update with no title field, and the save leaves the stored note's title
unchanged. -/
theorem saveNote_empty_title_frame (c : SaveCtx) (st : EditorSt) (p : SavePayload)
    (i : String) (n : Note)
    (ht : strTruthy p.title = false)
    (hr1 : c.readonlyProp = false) (hr2 : c.storeReadonly = false)
    (hr3 : noteReadonly st.currentNote = false)
    (hid : p.id = some i) (hi : i ≠ "")
    (hn : dbNotesNote st.db i = some n)
    (hco : n.conflicted = false) (hlk : n.locked = false) :
    ((builtPatch p).title = none) ∧
    (∀ nd : NotePatch, Effect.notesAdd nd ∈ (saveNote c st p).effects → nd.title = none) ∧
    (dbNotesNote (saveNote c st p).state.db i = some (applyPatch n (builtPatch p) c.now)) ∧
    ((applyPatch n (builtPatch p) c.now).title = n.title) := by
  have hbt : (builtPatch p).title = none := by simp [builtPatch, ht]
  refine ⟨hbt, ?_, ?_, ?_⟩
  · intro nd hmem
    rw [saveNote_notesAdd_is_builtPatch c st p nd hmem]
    exact hbt
  · rw [saveNote_unlocked_existing_eq c st p i n hr1 hr2 hr3 hid hi hn hco hlk,
        finishSave_state_db]
    exact dbNotesNote_map_patch st.db i n (builtPatch p) c.now hn
  · simp [applyPatch, hbt]

/-- C10 witness: saving with an empty title leaves `sampleNote`'s stored
title `"T"` untouched. -/
theorem saveNote_empty_title_frame_witness :
    (builtPatch emptyTitlePayload).title = none ∧
    dbNotesNote (saveNote sampleCtx sampleSt emptyTitlePayload).state.db "n1" =
      some (applyPatch sampleNote (builtPatch emptyTitlePayload) 99) ∧
    (applyPatch sampleNote (builtPatch emptyTitlePayload) 99).title = sampleNote.title := by
  have h := saveNote_empty_title_frame sampleCtx sampleSt emptyTitlePayload "n1" sampleNote
    (by decide) rfl rfl (by decide) rfl (by decide) (by decide) (by decide) (by decide)
  exact ⟨h.1, h.2.2.1, h.2.2.2⟩

/-- C6: a save of invalid (empty/default) content mints a fresh
history-session token equal to the current time, writes a partial update
whose history token is null, and any subsequent save of valid content whose
payload token was read from the minted ref writes the newly minted token. -/
theorem saveNote_invalid_content_history_reset (c : SaveCtx) (st : EditorSt)
    (p : SavePayload)
    (hr1 : c.readonlyProp = false) (hr2 : c.storeReadonly = false)
    (hr3 : noteReadonly st.currentNote = false)
    (hfound : strTruthy p.id = true → (dbNotesNote st.db (p.id.getD "")).isSome = true)
    (hconf : noteConflicted (lookedUpNote st.db p.id) = false)
    (hinv : isContentInvalid p.data = true) :
    (saveNote c st p).state.sessionHistoryId = some c.now ∧
    (∀ nd : NotePatch,
      (Effect.notesAdd nd ∈ (saveNote c st p).effects ∨
        Effect.vaultSave nd ∈ (saveNote c st p).effects) → nd.sessionId = none) ∧
    (∀ (c2 : SaveCtx) (st2 : EditorSt) (p2 : SavePayload),
      p2.sessionHistoryId = (saveNote c st p).state.sessionHistoryId →
      isContentInvalid p2.data = false →
      ∀ nd : NotePatch,
        (Effect.notesAdd nd ∈ (saveNote c2 st2 p2).effects ∨
          Effect.vaultSave nd ∈ (saveNote c2 st2 p2).effects) →
        nd.sessionId = some c.now) := by
  have hpart1 : (saveNote c st p).state.sessionHistoryId = some c.now := by
    simp only [saveNote]
    split
    next hcond => rw [hr1, hr2, hr3] at hcond; simp at hcond
    · split
      next hcond2 =>
        rw [Bool.and_eq_true] at hcond2
        obtain ⟨hs, hns⟩ := hcond2
        rw [hfound hs] at hns
        simp at hns
      · split
        next hcf =>
          rw [hconf] at hcf
          exact absurd hcf (by simp)
        · split
          all_goals rw [finishSave_state_hist]
          all_goals try split
          all_goals simp [hinv]
  refine ⟨hpart1, ?_, ?_⟩
  · intro nd hmem
    rcases hmem with hmem | hmem
    · rw [saveNote_notesAdd_is_builtPatch c st p nd hmem]
      simp [builtPatch, hinv]
    · rw [saveNote_vaultSave_patch c st p nd hmem]
      simp [builtPatch, hinv]
  · intro c2 st2 p2 hph hv nd hmem
    have hsess : nd.sessionId = p2.sessionHistoryId := by
      rcases hmem with hmem | hmem
      · rw [saveNote_notesAdd_is_builtPatch c2 st2 p2 nd hmem]
        simp [builtPatch, hv]
      · rw [saveNote_vaultSave_patch c2 st2 p2 nd hmem]
        simp [builtPatch, hv]
    rw [hsess, hph, hpart1]

/-- C6 witness: saving empty content at `now = 99` re-mints the history
token to 99, persists a null token, and the follow-up valid save carrying
the minted token persists 99. -/
theorem saveNote_invalid_content_history_reset_witness :
    (saveNote sampleCtx sampleSt invalidPayload).state.sessionHistoryId = some 99 ∧
    (builtPatch invalidPayload).sessionId = none ∧
    (builtPatch mintedPayload).sessionId = some 99 := by
  have h := saveNote_invalid_content_history_reset sampleCtx sampleSt invalidPayload
    rfl rfl (by decide) (fun _ => by decide) (by decide) (by decide)
  refine ⟨h.1, ?_, ?_⟩
  · exact h.2.1 (builtPatch invalidPayload) (Or.inl (by decide))
  · exact h.2.2 sampleCtx sampleSt mintedPayload (by rw [h.1]; rfl) (by decide)
      (builtPatch mintedPayload) (Or.inl (by decide))

/-- C5: for a save of an existing unlocked note that completes while its
session is still active, the list-refresh broadcast fires if and only if the
session's save counter is below 2, or the saved title differs from the
cached in-memory title, or the first 200 characters of the saved preview
differ from the cached copy. -/
theorem saveNote_refresh_iff (c : SaveCtx) (st : EditorSt) (p : SavePayload)
    (i : String) (n n2 : Note)
    (hr1 : c.readonlyProp = false) (hr2 : c.storeReadonly = false)
    (hr3 : noteReadonly st.currentNote = false)
    (hid : p.id = some i) (hi : i ≠ "")
    (hn : dbNotesNote st.db i = some n)
    (hco : n.conflicted = false) (hlk : n.locked = false)
    (hsess : c.activeSessionAfterWrite = p.sessionId)
    (hn2 : dbNotesNote (saveNote c st p).state.db i = some n2) :
    (Effect.queueRefresh ∈ (saveNote c st p).effects ↔
      (st.saveCount < 2 ∨
        st.currentNote.map (fun m => m.title) ≠ some n2.title ∨
        (st.currentNote.bind (fun m => m.headline)).map (fun s => s.take 200) ≠
          n2.headline.map (fun s => s.take 200))) := by
  rw [saveNote_unlocked_existing_eq c st p i n hr1 hr2 hr3 hid hi hn hco hlk] at hn2 ⊢
  rw [finishSave_state_db] at hn2
  dsimp only at hn2
  unfold finishSave
  rw [if_pos (by simp [strTruthy_some i hi, hsess])]
  dsimp only
  split
  next heq =>
    rw [Option.getD_some] at heq
    rw [heq] at hn2
    exact absurd hn2 (by simp)
  next m2 heq =>
    rw [Option.getD_some] at heq
    rw [heq] at hn2
    obtain rfl : m2 = n2 := Option.some.inj hn2
    constructor
    · intro hx
      rcases List.mem_append.mp hx with h1 | h1
      · exfalso
        rcases List.mem_append.mp h1 with h2 | h2
        · rcases List.mem_append.mp h2 with h3 | h3
          · simp at h3
          · split at h3 <;> simp at h3
        · simp at h2
      · split at h1
        next hrf =>
          simp only [Bool.or_eq_true, decide_eq_true_eq, Bool.not_eq_true',
            beq_eq_false_iff_ne, ne_eq] at hrf
          exact or_assoc.mp hrf
        next hrf => simp at h1
    · intro hx
      refine List.mem_append.mpr (Or.inr ?_)
      rw [if_pos ?_]
      · simp
      · simp only [Bool.or_eq_true, decide_eq_true_eq, Bool.not_eq_true',
          beq_eq_false_iff_ne, ne_eq]
        exact or_assoc.mpr hx

set_option maxRecDepth 4000 in
/-- C5 witness: the very first save of a session (counter 0) broadcasts a
refresh. -/
theorem saveNote_refresh_iff_witness :
    Effect.queueRefresh ∈ (saveNote sampleCtx sampleSt samplePayload).effects := by
  have h := saveNote_refresh_iff sampleCtx sampleSt samplePayload "n1" sampleNote
      (applyPatch sampleNote (builtPatch samplePayload) 99)
      rfl rfl (by decide) rfl (by decide) (by decide) (by decide) (by decide) rfl (by decide)
  exact h.mpr (Or.inl (by decide))

/-- Auxiliary induction for C4: with one pending timer for key `k` armed at
time `t` carrying payload `p`, a chronological run of further events on `k`,
each arriving strictly inside the 500-unit window of its predecessor,
cancels and re-arms the timer at every step: nothing fires during the run
and the single pending timer carries the last payload. -/
theorem foldl_stepEvent_single (k : String) (fired : List (String × Nat)) :
    ∀ (ps : List (Nat × Nat)) (t p : Nat),
      withinWindow 500 ((t, k, p) :: ps.map (fun tp => (tp.1, k, tp.2))) →
      (ps.map (fun tp => (tp.1, k, tp.2))).foldl (stepEvent 500)
          ⟨[⟨k, t + 500, p⟩], fired⟩ =
        ⟨[⟨k, (ps.getLastD (t, p)).1 + 500, (ps.getLastD (t, p)).2⟩], fired⟩
  | [], t, p, _ => by simp [List.getLastD]
  | (t1, p1) :: rest, t, p, hc => by
    simp only [List.map_cons, withinWindow] at hc
    obtain ⟨h1, h2, h3⟩ := hc
    rw [List.map_cons, List.foldl_cons]
    have hstep : stepEvent 500 ⟨[⟨k, t + 500, p⟩], fired⟩ (t1, k, p1) =
        ⟨[⟨k, t1 + 500, p1⟩], fired⟩ := by
      have hno : ¬ (t + 500 ≤ t1) := by omega
      simp [stepEvent, hno]
    rw [hstep, foldl_stepEvent_single k fired rest t1 p1 h3]
    rw [List.getLastD_cons]

/-- C4: a chronological sequence of content-change notifications on one note
key, each arriving strictly within 500 time units of its predecessor,
produces exactly one executed save, and it carries the last payload. -/
theorem debounce_coalesces_to_last (k : String) (t0 p0 : Nat) (ps : List (Nat × Nat))
    (hc : withinWindow 500 (((t0, p0) :: ps).map (fun tp => (tp.1, k, tp.2)))) :
    runTimers 500 (((t0, p0) :: ps).map (fun tp => (tp.1, k, tp.2))) =
      [(k, (ps.getLastD (t0, p0)).2)] := by
  unfold runTimers
  rw [List.map_cons, List.foldl_cons]
  have h0 : stepEvent 500 ⟨[], []⟩ (t0, k, p0) = ⟨[⟨k, t0 + 500, p0⟩], []⟩ := by
    simp [stepEvent]
  rw [h0, foldl_stepEvent_single k [] ps t0 p0 hc]
  simp

/-- C4 witness: notifications at t = 0, 100, 200, 490 (window 500) yield
exactly one save, carrying the t = 490 payload. -/
theorem debounce_coalesces_to_last_witness :
    runTimers 500 ([((0 : Nat), (1 : Nat)), (100, 2), (200, 3), (490, 4)].map
        (fun tp => (tp.1, "n1", tp.2))) = [("n1", 4)] := by
  simpa using debounce_coalesces_to_last "n1" 0 1 [(100, 2), (200, 3), (490, 4)] (by decide)

end Notesnook
